import Mathlib

/-!
# cluster-api-provider-aws: elastic IP lifecycle and IAM identity-mapping convergence

Shallow embedding of

* `pkg/cloud/services/iamauth/crd.go` (`crdBackend.MapRole`, `crdBackend.MapUser`,
  `roleMappingMatchesIAMMap`, `userMappingMatchesIAMMap`), and
* `cloud/aws/services/ec2/eips.go` (`Service.allocateAddress`, `Service.releaseAddresses`).

Remote collaborators (the EC2 client, the controller-runtime client) are state machines
over an arbitrary state type; every call site of the source appends the call to a log, so
that statements about which remote calls were issued can be made.
-/

namespace CAPA

/-! ## Errors -/

/-- An argument handed to a format string: a string value, or the error being wrapped
(`errors.Wrapf(err, "... %q", err)` and `fmt.Errorf("...: %w", err)` pass the cause again). -/
inductive FmtArg where
  | str (s : String)
  | cause
  deriving DecidableEq, Repr

/-- Go `error` values as far as the two source files build and inspect them.
`sdk code message` is an error value handed back by a collaborator (`code` is the AWS
error code when the value is an `awserr.Error`); `Errorf` is `errors.Errorf`;
`Wrapf cause format args` is `errors.Wrapf(cause, format, args...)`, and also
`fmt.Errorf` with a `%w` verb. Format strings are kept unrendered with their arguments. -/
inductive GoError where
  | sdk (code : Option String) (message : String)
  | Errorf (format : String) (args : List FmtArg)
  | Wrapf (cause : GoError) (format : String) (args : List FmtArg)
  deriving DecidableEq, Repr

/-- The error produced directly wraps `cause`. -/
def GoError.wraps : GoError → GoError → Bool
  | .Wrapf c _ _, cause => decide (c = cause)
  | _, _ => false

/-- The string `s` is one of the format arguments of the outermost message. -/
def GoError.names : GoError → String → Bool
  | .Errorf _ args, s => decide (FmtArg.str s ∈ args)
  | .Wrapf _ _ args, s => decide (FmtArg.str s ∈ args)
  | .sdk _ _, _ => false

/-! ## iamauth: data model -/

/-- `RoleMapping` of package iamauth: the fields `crd.go` reads. -/
structure RoleMapping where
  RoleARN : String
  UserName : String
  Groups : List String
  deriving DecidableEq, Repr

/-- `UserMapping` of package iamauth: the fields `crd.go` reads. -/
structure UserMapping where
  UserARN : String
  UserName : String
  Groups : List String
  deriving DecidableEq, Repr

/-- `iamauthv1.IAMIdentityMappingSpec`. -/
structure IAMIdentityMappingSpec where
  ARN : String
  Username : String
  Groups : List String
  deriving DecidableEq, Repr

/-- `v1.ObjectMeta`, the fields `crd.go` sets. -/
structure ObjectMeta where
  Namespace : String
  GenerateName : String
  deriving DecidableEq, Repr

/-- `iamauthv1.IAMIdentityMapping`. -/
structure IAMIdentityMapping where
  ObjectMeta : ObjectMeta
  Spec : IAMIdentityMappingSpec
  deriving DecidableEq, Repr

/-- `metav1.NamespaceSystem` of k8s.io/apimachinery. -/
def NamespaceSystem : String := "kube-system"

/-! ## iamauth: the matching functions (crd.go lines 105-159) -/

/-- Inner loop of lines 119-124 / 147-152: `found := false`, then every group of the
record is visited (no early exit) and `found` is set when it equals `mappingGroup`. -/
def groupFound (mappingGroup : String) (iamGroups : List String) : Bool :=
  iamGroups.foldl (fun found iamGroup => if iamGroup == mappingGroup then true else found) false

/-- Outer loop of lines 118-128 / 146-156: returns `false` at the first group of the
desired mapping that was not found, `true` when the range is exhausted. -/
def allGroupsFound : List String → List String → Bool
  | [], _ => true
  | mappingGroup :: rest, iamGroups =>
    if !groupFound mappingGroup iamGroups then false
    else allGroupsFound rest iamGroups

/-- Lines 114-130 / 142-158, the part both matching functions share verbatim: the length
guard followed by the nested loops. -/
def groupsMatch (mappingGroups iamGroups : List String) : Bool :=
  if mappingGroups.length != iamGroups.length then false
  else allGroupsFound mappingGroups iamGroups

/-- `roleMappingMatchesIAMMap` (crd.go lines 105-131). -/
def roleMappingMatchesIAMMap (mapping : RoleMapping) (iamMapping : IAMIdentityMapping) : Bool :=
  if mapping.RoleARN != iamMapping.Spec.ARN then false
  else if mapping.UserName != iamMapping.Spec.Username then false
  else groupsMatch mapping.Groups iamMapping.Spec.Groups

/-- `userMappingMatchesIAMMap` (crd.go lines 133-159). -/
def userMappingMatchesIAMMap (mapping : UserMapping) (iamMapping : IAMIdentityMapping) : Bool :=
  if mapping.UserARN != iamMapping.Spec.ARN then false
  else if mapping.UserName != iamMapping.Spec.Username then false
  else groupsMatch mapping.Groups iamMapping.Spec.Groups

/-! ## iamauth: the convergence calls (crd.go lines 33-103) -/

/-- A call issued on `crclient.Client`. `crd.go` uses no other method of the client. -/
inductive ClientCall where
  | List
  | Create (obj : IAMIdentityMapping)
  deriving DecidableEq, Repr

/-- The controller-runtime client as a state machine over a store state `σ`. -/
structure Client (σ : Type) where
  List : σ → Except GoError (List IAMIdentityMapping) × σ
  Create : IAMIdentityMapping → σ → Option GoError × σ

/-- The store state together with the log of calls issued on the client so far. -/
structure ClientWorld (σ : Type) where
  store : σ
  calls : List ClientCall

/-- The loop of lines 46-52 / 82-88: `true` when some listed record matches. -/
def anyMatches (matches_ : IAMIdentityMapping → Bool) : List IAMIdentityMapping → Bool
  | [] => false
  | existing :: rest => if matches_ existing then true else anyMatches matches_ rest

/-- The record built at lines 54-64. -/
def roleRecord (mapping : RoleMapping) : IAMIdentityMapping :=
  { ObjectMeta := { Namespace := NamespaceSystem, GenerateName := "capa-iamauth-" }
    Spec := { ARN := mapping.RoleARN, Username := mapping.UserName, Groups := mapping.Groups } }

/-- The record built at lines 90-100. -/
def userRecord (mapping : UserMapping) : IAMIdentityMapping :=
  { ObjectMeta := { Namespace := NamespaceSystem, GenerateName := "capa-iamauth-" }
    Spec := { ARN := mapping.UserARN, Username := mapping.UserName, Groups := mapping.Groups } }

/-- `crdBackend.MapRole` (crd.go lines 33-67). `Validate` is `RoleMapping.Validate`, which
is declared outside the two source files and is taken as a parameter. The result is the
returned error (`none` is `nil`) and the world after the call. -/
def MapRole {σ : Type} (Validate : RoleMapping → Option GoError) (client : Client σ)
    (mapping : RoleMapping) (w : ClientWorld σ) : Option GoError × ClientWorld σ :=
  match Validate mapping with
  | some err => (some err, w)
  | none =>
    match client.List w.store with
    | (.error err, s) =>
      (some (.Wrapf err "getting list of mappings: %w" [.cause]),
        { store := s, calls := w.calls ++ [.List] })
    | (.ok items, s) =>
      if anyMatches (roleMappingMatchesIAMMap mapping) items then
        (none, { store := s, calls := w.calls ++ [.List] })
      else
        let iamMapping := roleRecord mapping
        let r := client.Create iamMapping s
        (r.1, { store := r.2, calls := w.calls ++ [.List, .Create iamMapping] })

/-- `crdBackend.MapUser` (crd.go lines 69-103); `Validate` is `UserMapping.Validate`. -/
def MapUser {σ : Type} (Validate : UserMapping → Option GoError) (client : Client σ)
    (mapping : UserMapping) (w : ClientWorld σ) : Option GoError × ClientWorld σ :=
  match Validate mapping with
  | some err => (some err, w)
  | none =>
    match client.List w.store with
    | (.error err, s) =>
      (some (.Wrapf err "getting list of mappings: %w" [.cause]),
        { store := s, calls := w.calls ++ [.List] })
    | (.ok items, s) =>
      if anyMatches (userMappingMatchesIAMMap mapping) items then
        (none, { store := s, calls := w.calls ++ [.List] })
      else
        let iamMapping := userRecord mapping
        let r := client.Create iamMapping s
        (r.1, { store := r.2, calls := w.calls ++ [.List, .Create iamMapping] })

/-- The mapping store as a list of records: `List` returns every record unless the
failure `listErr` is injected, and `Create` appends the submitted record unless
`createErr` rejects it. Neither call changes the store when it fails. -/
def listStore (listErr : Option GoError) (createErr : IAMIdentityMapping → Option GoError) :
    Client (List IAMIdentityMapping) where
  List := fun s =>
    match listErr with
    | some e => (.error e, s)
    | none => (.ok s, s)
  Create := fun obj s =>
    match createErr obj with
    | some e => (some e, s)
    | none => (none, s ++ [obj])

/-! ## iamauth: the equivalence of the specification -/

/-- The equivalence of a desired role mapping and a stored record in the words of the
specification (section 3): the principal identifiers are equal, the user names are equal,
and the groups are equal as sets. It is stated without reference to the matching
functions of `crd.go`, to be compared with them. -/
def specEquivalentRole (mapping : RoleMapping) (record : IAMIdentityMapping) : Prop :=
  mapping.RoleARN = record.Spec.ARN ∧ mapping.UserName = record.Spec.Username ∧
    mapping.Groups.toFinset = record.Spec.Groups.toFinset

/-- The equivalence of a desired user mapping and a stored record in the words of the
specification (section 3), on the user identifier. -/
def specEquivalentUser (mapping : UserMapping) (record : IAMIdentityMapping) : Prop :=
  mapping.UserARN = record.Spec.ARN ∧ mapping.UserName = record.Spec.Username ∧
    mapping.Groups.toFinset = record.Spec.Groups.toFinset

instance specEquivalentRole.decidable (mapping : RoleMapping) (record : IAMIdentityMapping) :
    Decidable (specEquivalentRole mapping record) :=
  inferInstanceAs (Decidable (mapping.RoleARN = record.Spec.ARN ∧
    mapping.UserName = record.Spec.Username ∧
    mapping.Groups.toFinset = record.Spec.Groups.toFinset))

instance specEquivalentUser.decidable (mapping : UserMapping) (record : IAMIdentityMapping) :
    Decidable (specEquivalentUser mapping record) :=
  inferInstanceAs (Decidable (mapping.UserARN = record.Spec.ARN ∧
    mapping.UserName = record.Spec.Username ∧
    mapping.Groups.toFinset = record.Spec.Groups.toFinset))

/-! ## ec2: data model and collaborators -/

/-- `ec2.Address`, the fields `eips.go` reads. `AllocationId` and `PublicIp` are
dereferenced unconditionally by the source (lines 50, 72, 74) and are present on every
address the cluster-filtered query returns; `AssociationId` is `nil` when the address is
not associated. -/
structure Address where
  AllocationId : String
  PublicIp : String
  AssociationId : Option String
  deriving DecidableEq, Repr

/-- A call issued by `eips.go` on a collaborator: the three methods of `s.EC2` it uses,
and the sibling method `s.createTags` (cluster name, resource id, lifecycle, additional
tags). -/
inductive EC2Call where
  | AllocateAddress (domain : String)
  | createTags (clusterName resourceID lifecycle : String) (additional : List (String × String))
  | DescribeAddresses (clusterFilter : String)
  | ReleaseAddress (allocationId : String)
  deriving DecidableEq, Repr

/-- The collaborators of `Service` as state machines over a remote state `σ`.
`AllocateAddress` takes the `Domain` and yields the new allocation id;
`DescribeAddresses` takes the cluster name of the single filter `s.filterCluster(clusterName)`;
`ReleaseAddress` takes the allocation id. `createTags` is the method
`Service.createTags`, declared outside the two source files and taken as a parameter. -/
structure Service (σ : Type) where
  AllocateAddress : String → σ → Except GoError String × σ
  DescribeAddresses : String → σ → Except GoError (List Address) × σ
  ReleaseAddress : String → σ → Option GoError × σ
  createTags : String → String → String → List (String × String) → σ → Option GoError × σ

/-- The remote state, the log of collaborator calls and the lines written by `glog.Infof`. -/
structure EC2World (σ : Type) where
  remote : σ
  calls : List EC2Call
  infos : List (String × List String)

/-- Modelled from the spec: the constant `ResourceLifecycleOwned` is declared outside the
two source files; the spec calls it the "owned" lifecycle marker. -/
def ResourceLifecycleOwned : String := "owned"

/-- Modelled from the spec: the constant `errorAuthFailure` is declared outside the two
source files; it is the remote system's "auth failure" error code. -/
def errorAuthFailure : String := "AuthFailure"

/-- Modelled from the spec: the constant `errorInUseIPAddress` is declared outside the two
source files; it is the remote system's "address still in use" error code. -/
def errorInUseIPAddress : String := "InvalidIPAddress.InUse"

/-- Modelled from the spec: the value of `wait.NewBackoff()` (package wait is outside the
two source files). The spec gives the schedule "a configured maximum number of attempts";
only that bound matters here, the durations do not. -/
structure Backoff where
  Steps : Nat
  deriving DecidableEq, Repr

/-- Modelled from the spec: the error the retry executor returns when its schedule is
exhausted without any error to report. -/
def ErrWaitTimeout : GoError := .sdk none "timed out waiting for the condition"

/-- The error code of an error value, when it carries one. -/
def GoError.code : GoError → Option String
  | .sdk c _ => c
  | _ => none

/-- Modelled from the spec: an error is retryable when its code is in `retryableErrorCodes`. -/
def isRetryable (err : GoError) (retryableErrors : List String) : Bool :=
  match err.code with
  | some c => decide (c ∈ retryableErrors)
  | none => false

/-- Modelled from the spec: the loop of the retry executor with `steps` attempts left and
the last retryable error seen. It "invokes operation repeatedly; treats an error whose
code is in retryableErrorCodes as retryable, any other error as immediately fatal;
returns the last error if the policy is exhausted". An operation that reports neither
completion nor an error is invoked again. -/
def retryLoop {ω : Type} (condition : ω → (Bool × Option GoError) × ω)
    (retryableErrors : List String) : Nat → Option GoError → ω → Option GoError × ω
  | 0, last, w => (some (last.getD ErrWaitTimeout), w)
  | steps + 1, last, w =>
    match condition w with
    | ((true, _), w1) => (none, w1)
    | ((false, none), w1) => retryLoop condition retryableErrors steps last w1
    | ((false, some err), w1) =>
      if isRetryable err retryableErrors then
        retryLoop condition retryableErrors steps (some err) w1
      else (some err, w1)

/-- Modelled from the spec: `wait.WaitForWithRetryable(backoff, condition, retryableErrors)`
of package wait, which is outside the two source files (RetryExecutor `run`). -/
def WaitForWithRetryable {ω : Type} (backoff : Backoff)
    (condition : ω → (Bool × Option GoError) × ω) (retryableErrors : List String)
    (w : ω) : Option GoError × ω :=
  retryLoop condition retryableErrors backoff.Steps none w

/-! ## ec2: allocateAddress and releaseAddresses (eips.go) -/

/-- `Service.allocateAddress` (eips.go lines 24-38): the returned allocation id and error,
and the world after the call. -/
def allocateAddress {σ : Type} (s : Service σ) (clusterName : String) (w : EC2World σ) :
    (String × Option GoError) × EC2World σ :=
  match s.AllocateAddress "vpc" w.remote with
  | (.error err, r) =>
    (("", some (.Wrapf err "failed to create Elastic IP address" [])),
      { w with remote := r, calls := w.calls ++ [.AllocateAddress "vpc"] })
  | (.ok allocationId, r) =>
    match s.createTags clusterName allocationId ResourceLifecycleOwned [] r with
    | (some err, r1) =>
      (("", some (.Wrapf err "failed to tag elastic IP %q" [.str allocationId])),
        { w with
          remote := r1
          calls := w.calls ++ [.AllocateAddress "vpc",
            .createTags clusterName allocationId ResourceLifecycleOwned []] })
    | (none, r1) =>
      ((allocationId, none),
        { w with
          remote := r1
          calls := w.calls ++ [.AllocateAddress "vpc",
            .createTags clusterName allocationId ResourceLifecycleOwned []] })

/-- The closure `delete` of lines 53-62: one `ReleaseAddress` call for `ip`. -/
def delete {σ : Type} (s : Service σ) (ip : Address) (w : EC2World σ) :
    (Bool × Option GoError) × EC2World σ :=
  match s.ReleaseAddress ip.AllocationId w.remote with
  | (some err, r) =>
    ((false, some err), { w with remote := r, calls := w.calls ++ [.ReleaseAddress ip.AllocationId] })
  | (none, r) =>
    ((true, none), { w with remote := r, calls := w.calls ++ [.ReleaseAddress ip.AllocationId] })

/-- The error of line 50. -/
def stillAssociatedError (ip : Address) (associationId : String) : GoError :=
  .Errorf
    "failed to release elastic IP %q with allocation ID %q: Still associated with association ID %q"
    [.str ip.PublicIp, .str ip.AllocationId, .str associationId]

/-- The error of line 72. -/
def releaseFailedError (ip : Address) (err : GoError) : GoError :=
  .Wrapf err "failed to release elastic IP %q: %q" [.str ip.AllocationId, .cause]

/-- The loop of lines 48-75 over `out.Addresses`, followed by `return nil`. `NewBackoff`
is the value of `wait.NewBackoff()`. -/
def releaseLoop {σ : Type} (s : Service σ) (NewBackoff : Backoff) :
    List Address → EC2World σ → Option GoError × EC2World σ
  | [], w => (none, w)
  | ip :: rest, w =>
    match ip.AssociationId with
    | some associationId => (some (stillAssociatedError ip associationId), w)
    | none =>
      let retryableErrors := [errorAuthFailure, errorInUseIPAddress]
      match WaitForWithRetryable NewBackoff (delete s ip) retryableErrors w with
      | (some err, w1) => (some (releaseFailedError ip err), w1)
      | (none, w1) =>
        releaseLoop s NewBackoff rest
          { w1 with
            infos := w1.infos ++
              [("released elastic IP %q with allocation ID %q", [ip.PublicIp, ip.AllocationId])] }

/-- `Service.releaseAddresses` (eips.go lines 40-77). -/
def releaseAddresses {σ : Type} (s : Service σ) (NewBackoff : Backoff) (clusterName : String)
    (w : EC2World σ) : Option GoError × EC2World σ :=
  match s.DescribeAddresses clusterName w.remote with
  | (.error err, r) =>
    (some (.Wrapf err "failed to describe elastic IPs %q" [.cause]),
      { w with remote := r, calls := w.calls ++ [.DescribeAddresses clusterName] })
  | (.ok addresses, r) =>
    releaseLoop s NewBackoff addresses
      { w with remote := r, calls := w.calls ++ [.DescribeAddresses clusterName] }

/-- The `ReleaseAddress` calls of a run that makes `counts[j]` attempts on the `j`-th
address, one address after the other in list order. -/
def releaseAttempts (addresses : List Address) (counts : List Nat) : List EC2Call :=
  (List.zipWith (fun ip n => List.replicate n (EC2Call.ReleaseAddress ip.AllocationId))
    addresses counts).flatten

/-! ## Concrete inputs used by the examples below -/

/-- The desired role mapping of the spec's scenario. -/
def exampleRole : RoleMapping :=
  { RoleARN := "arn:role/X", UserName := "alice", Groups := ["system:masters"] }

/-- A desired user mapping. -/
def exampleUser : UserMapping :=
  { UserARN := "arn:user/Y", UserName := "bob", Groups := ["dev", "ops"] }

/-- A stored record for principal `arn` and user name `username` with the given groups. -/
def recordWith (arn username : String) (groups : List String) : IAMIdentityMapping :=
  { ObjectMeta := { Namespace := NamespaceSystem, GenerateName := "capa-iamauth-" }
    Spec := { ARN := arn, Username := username, Groups := groups } }

/-- A validation that rejects an empty role identifier and accepts everything else. -/
def validateRoleNonEmpty (mapping : RoleMapping) : Option GoError :=
  if mapping.RoleARN = "" then some (.Errorf "role ARN is required" []) else none

/-- A validation that rejects an empty user identifier and accepts everything else. -/
def validateUserNonEmpty (mapping : UserMapping) : Option GoError :=
  if mapping.UserARN = "" then some (.Errorf "user ARN is required" []) else none

/-- An unassociated address with the given allocation id and public IP. -/
def freeAddress (allocationId publicIp : String) : Address :=
  { AllocationId := allocationId, PublicIp := publicIp, AssociationId := none }

/-- A fake `Service` whose remote state counts the `ReleaseAddress` calls made so far:
the `n`-th call (from 0) for allocation id `id` answers `script n id`. `DescribeAddresses`
returns `addresses`, `AllocateAddress` hands out "eipalloc-new", and `createTags` fails
for the cluster name "untaggable" only. -/
def scriptedService (addresses : List Address) (script : Nat → String → Option GoError) :
    Service Nat where
  AllocateAddress := fun _ n => (.ok "eipalloc-new", n)
  DescribeAddresses := fun _ n => (.ok addresses, n)
  ReleaseAddress := fun id n => (script n id, n + 1)
  createTags := fun clusterName _ _ _ n =>
    if clusterName = "untaggable" then (some (.sdk (some "UnauthorizedOperation") "denied"), n)
    else (none, n)

/-- Two failures with the retryable code `errorAuthFailure`, then success. -/
def failTwiceThenSucceed (n : Nat) (_id : String) : Option GoError :=
  if n < 2 then some (.sdk (some errorAuthFailure) "not yet authorized") else none

/-- The first call succeeds, the second fails with a retryable code, the third fails
with a code that is not retryable, later calls succeed. -/
def fatalOnThirdCall (n : Nat) (_id : String) : Option GoError :=
  if n = 1 then some (.sdk (some errorInUseIPAddress) "still in use")
  else if n = 2 then some (.sdk (some "InvalidAllocationID.NotFound") "no such allocation")
  else none

/-- Three addresses of one cluster, the second still associated. -/
def addressesWithAssociated : List Address :=
  [freeAddress "eipalloc-1" "192.0.2.1",
    { AllocationId := "eipalloc-2", PublicIp := "192.0.2.2", AssociationId := some "eipassoc-2" },
    freeAddress "eipalloc-3" "192.0.2.3"]

/-- Three unassociated addresses of one cluster. -/
def addressesFree : List Address :=
  [freeAddress "eipalloc-1" "192.0.2.1", freeAddress "eipalloc-2" "192.0.2.2",
    freeAddress "eipalloc-3" "192.0.2.3"]

/-- The world before any call: remote call counter 0, empty logs. -/
def freshWorld : EC2World Nat := { remote := 0, calls := [], infos := [] }

/-! ## Theorems: the matching functions -/

theorem groupFound_acc (g : String) (gs : List String) (acc : Bool) :
    gs.foldl (fun found iamGroup => if iamGroup == g then true else found) acc
      = (acc || decide (g ∈ gs)) := by
  induction gs generalizing acc with
  | nil => simp
  | cons x xs ih =>
    rw [List.foldl_cons, ih]
    by_cases hx : x = g
    · subst hx; simp
    · have hx2 : ¬ g = x := fun h => hx h.symm
      simp [hx, hx2]

theorem groupFound_iff (g : String) (gs : List String) : groupFound g gs = true ↔ g ∈ gs := by
  unfold groupFound
  rw [groupFound_acc]
  simp

theorem allGroupsFound_iff (d e : List String) :
    allGroupsFound d e = true ↔ ∀ g ∈ d, g ∈ e := by
  induction d with
  | nil => simp [allGroupsFound]
  | cons x xs ih =>
    unfold allGroupsFound
    by_cases hx : groupFound x e = true
    · have hm := (groupFound_iff x e).1 hx
      simp [hx, ih, hm]
    · have hm : ¬ x ∈ e := fun h => hx ((groupFound_iff x e).2 h)
      simp [hx, hm]

theorem groupsMatch_iff (d e : List String) :
    groupsMatch d e = true ↔ d.length = e.length ∧ ∀ g ∈ d, g ∈ e := by
  unfold groupsMatch
  by_cases hl : d.length = e.length
  · simp [hl, allGroupsFound_iff]
  · simp [hl]

theorem roleMatches_iff (mapping : RoleMapping) (iamMapping : IAMIdentityMapping) :
    roleMappingMatchesIAMMap mapping iamMapping = true ↔
      mapping.RoleARN = iamMapping.Spec.ARN ∧ mapping.UserName = iamMapping.Spec.Username ∧
      mapping.Groups.length = iamMapping.Spec.Groups.length ∧
      ∀ g ∈ mapping.Groups, g ∈ iamMapping.Spec.Groups := by
  unfold roleMappingMatchesIAMMap
  by_cases ha : mapping.RoleARN = iamMapping.Spec.ARN
  · by_cases hu : mapping.UserName = iamMapping.Spec.Username
    · simp [ha, hu, groupsMatch_iff]
    · simp [ha, hu]
  · simp [ha]

theorem userMatches_iff (mapping : UserMapping) (iamMapping : IAMIdentityMapping) :
    userMappingMatchesIAMMap mapping iamMapping = true ↔
      mapping.UserARN = iamMapping.Spec.ARN ∧ mapping.UserName = iamMapping.Spec.Username ∧
      mapping.Groups.length = iamMapping.Spec.Groups.length ∧
      ∀ g ∈ mapping.Groups, g ∈ iamMapping.Spec.Groups := by
  unfold userMappingMatchesIAMMap
  by_cases ha : mapping.UserARN = iamMapping.Spec.ARN
  · by_cases hu : mapping.UserName = iamMapping.Spec.Username
    · simp [ha, hu, groupsMatch_iff]
    · simp [ha, hu]
  · simp [ha]

/-- On duplicate-free lists, equal length together with inclusion is equality of members. -/
theorem length_subset_iff_same_members (d e : List String) (hd : d.Nodup) (he : e.Nodup) :
    (d.length = e.length ∧ ∀ g ∈ d, g ∈ e) ↔ ∀ g, g ∈ d ↔ g ∈ e := by
  constructor
  · rintro ⟨hl, hs⟩ g
    have hp : d.Perm e := (List.subperm_of_subset hd hs).perm_of_length_le (le_of_eq hl.symm)
    exact hp.mem_iff
  · intro h
    have hp : d.Perm e := (List.perm_ext_iff_of_nodup hd he).2 h
    exact ⟨hp.length_eq, fun g hg => (h g).1 hg⟩

/-- C10: for duplicate-free group lists, the check of lines 114-130 / 142-158 (equal
length, then every desired group found in the record's groups) succeeds exactly when the
two lists have the same members. -/
theorem groupsMatch_nodup_iff_same_members (mappingGroups iamGroups : List String)
    (hd : mappingGroups.Nodup) (he : iamGroups.Nodup) :
    groupsMatch mappingGroups iamGroups = true ↔ ∀ g, g ∈ mappingGroups ↔ g ∈ iamGroups := by
  rw [groupsMatch_iff]
  exact length_subset_iff_same_members mappingGroups iamGroups hd he

theorem groupsMatch_nodup_iff_same_members_witness :
    (["dev", "ops"] : List String).Nodup ∧ (["ops", "dev"] : List String).Nodup ∧
    (groupsMatch ["dev", "ops"] ["ops", "dev"] = true ↔
      ∀ g, g ∈ (["dev", "ops"] : List String) ↔ g ∈ (["ops", "dev"] : List String)) :=
  ⟨by decide, by decide,
    groupsMatch_nodup_iff_same_members ["dev", "ops"] ["ops", "dev"] (by decide) (by decide)⟩

/-- C1 (as amended): `roleMappingMatchesIAMMap` returns true exactly when the role ARN
equals the record's ARN, the user name equals the record's username, the two group lists
have the same length and every group of the desired mapping occurs in the record's groups;
when neither group list has a duplicate this is exactly equality of the two lists as sets.
Likewise `userMappingMatchesIAMMap` on the user ARN. -/
theorem mappingMatches_characterisation (role : RoleMapping) (user : UserMapping)
    (iamMapping : IAMIdentityMapping) :
    (roleMappingMatchesIAMMap role iamMapping = true ↔
      role.RoleARN = iamMapping.Spec.ARN ∧ role.UserName = iamMapping.Spec.Username ∧
      role.Groups.length = iamMapping.Spec.Groups.length ∧
      ∀ g ∈ role.Groups, g ∈ iamMapping.Spec.Groups) ∧
    (role.Groups.Nodup → iamMapping.Spec.Groups.Nodup →
      (roleMappingMatchesIAMMap role iamMapping = true ↔
        role.RoleARN = iamMapping.Spec.ARN ∧ role.UserName = iamMapping.Spec.Username ∧
        ∀ g, g ∈ role.Groups ↔ g ∈ iamMapping.Spec.Groups)) ∧
    (userMappingMatchesIAMMap user iamMapping = true ↔
      user.UserARN = iamMapping.Spec.ARN ∧ user.UserName = iamMapping.Spec.Username ∧
      user.Groups.length = iamMapping.Spec.Groups.length ∧
      ∀ g ∈ user.Groups, g ∈ iamMapping.Spec.Groups) ∧
    (user.Groups.Nodup → iamMapping.Spec.Groups.Nodup →
      (userMappingMatchesIAMMap user iamMapping = true ↔
        user.UserARN = iamMapping.Spec.ARN ∧ user.UserName = iamMapping.Spec.Username ∧
        ∀ g, g ∈ user.Groups ↔ g ∈ iamMapping.Spec.Groups)) := by
  refine ⟨roleMatches_iff role iamMapping, ?_, userMatches_iff user iamMapping, ?_⟩
  · intro hd he
    rw [roleMatches_iff, ← length_subset_iff_same_members _ _ hd he]
  · intro hd he
    rw [userMatches_iff, ← length_subset_iff_same_members _ _ hd he]

theorem mappingMatches_characterisation_witness :
    roleMappingMatchesIAMMap exampleRole (recordWith "arn:role/X" "alice" ["system:masters"])
      = true ∧
    userMappingMatchesIAMMap exampleUser (recordWith "arn:user/Y" "bob" ["ops", "dev"])
      = true := by
  have h := mappingMatches_characterisation exampleRole exampleUser
    (recordWith "arn:role/X" "alice" ["system:masters"])
  have h2 := mappingMatches_characterisation exampleRole exampleUser
    (recordWith "arn:user/Y" "bob" ["ops", "dev"])
  refine ⟨(h.2.1 (by decide) (by decide)).2 ⟨rfl, rfl, ?_⟩,
    (h2.2.2.2 (by decide) (by decide)).2 ⟨rfl, rfl, ?_⟩⟩
  · intro g; exact Iff.rfl
  · intro g
    simp [exampleUser, recordWith]
    exact or_comm

/-- C1 (as stated) fails on group lists with duplicates: desired groups `[a, a]` are
judged to match a record with groups `[a, b]` although the sets differ, and are judged not
to match a record with groups `[a]` although the sets are equal; the same for user
mappings. -/
theorem mappingMatches_not_set_equality :
    (roleMappingMatchesIAMMap ⟨"arn:role/X", "alice", ["a", "a"]⟩
        (recordWith "arn:role/X" "alice" ["a", "b"]) = true ∧
      ¬ (∀ g, g ∈ (["a", "a"] : List String) ↔ g ∈ (["a", "b"] : List String))) ∧
    (roleMappingMatchesIAMMap ⟨"arn:role/X", "alice", ["a", "a"]⟩
        (recordWith "arn:role/X" "alice" ["a"]) = false ∧
      (∀ g, g ∈ (["a", "a"] : List String) ↔ g ∈ (["a"] : List String))) ∧
    (userMappingMatchesIAMMap ⟨"arn:user/Y", "bob", ["a", "a"]⟩
        (recordWith "arn:user/Y" "bob" ["a", "b"]) = true ∧
      userMappingMatchesIAMMap ⟨"arn:user/Y", "bob", ["a", "a"]⟩
        (recordWith "arn:user/Y" "bob" ["a"]) = false) := by
  refine ⟨⟨by decide, ?_⟩, ⟨by decide, ?_⟩, by decide, by decide⟩
  · intro h
    have hb := (h "b").2 (by simp)
    simp at hb
  · intro g; simp

/-- C5: permuting the groups of the desired mapping, or the groups of the existing
record, does not change the result of `roleMappingMatchesIAMMap` or of
`userMappingMatchesIAMMap`; in particular groups `[A, B]` match a record with groups
`[B, A]`. -/
theorem mappingMatches_perm_invariant (role : RoleMapping) (user : UserMapping)
    (iamMapping : IAMIdentityMapping) (roleGroups userGroups iamGroups : List String)
    (hr : role.Groups.Perm roleGroups) (hu : user.Groups.Perm userGroups)
    (hi : iamMapping.Spec.Groups.Perm iamGroups) :
    roleMappingMatchesIAMMap { role with Groups := roleGroups }
        { iamMapping with Spec := { iamMapping.Spec with Groups := iamGroups } }
      = roleMappingMatchesIAMMap role iamMapping ∧
    userMappingMatchesIAMMap { user with Groups := userGroups }
        { iamMapping with Spec := { iamMapping.Spec with Groups := iamGroups } }
      = userMappingMatchesIAMMap user iamMapping ∧
    (∀ (arn username A B : String),
      roleMappingMatchesIAMMap ⟨arn, username, [A, B]⟩ (recordWith arn username [B, A]) = true ∧
      userMappingMatchesIAMMap ⟨arn, username, [A, B]⟩ (recordWith arn username [B, A]) = true) := by
  refine ⟨?_, ?_, ?_⟩
  · rw [Bool.eq_iff_iff, roleMatches_iff, roleMatches_iff]
    simp only [hr.length_eq, hi.length_eq]
    constructor
    · rintro ⟨h1, h2, h3, h4⟩
      exact ⟨h1, h2, h3, fun g hg => hi.mem_iff.2 (h4 g (hr.mem_iff.1 hg))⟩
    · rintro ⟨h1, h2, h3, h4⟩
      exact ⟨h1, h2, h3, fun g hg => hi.mem_iff.1 (h4 g (hr.mem_iff.2 hg))⟩
  · rw [Bool.eq_iff_iff, userMatches_iff, userMatches_iff]
    simp only [hu.length_eq, hi.length_eq]
    constructor
    · rintro ⟨h1, h2, h3, h4⟩
      exact ⟨h1, h2, h3, fun g hg => hi.mem_iff.2 (h4 g (hu.mem_iff.1 hg))⟩
    · rintro ⟨h1, h2, h3, h4⟩
      exact ⟨h1, h2, h3, fun g hg => hi.mem_iff.1 (h4 g (hu.mem_iff.2 hg))⟩
  · intro arn username A B
    constructor
    · rw [roleMatches_iff]; simp [recordWith]
    · rw [userMatches_iff]; simp [recordWith]

theorem mappingMatches_perm_invariant_witness :
    roleMappingMatchesIAMMap ⟨"arn:role/X", "alice", ["B", "A"]⟩
        (recordWith "arn:role/X" "alice" ["A", "C"])
      = roleMappingMatchesIAMMap ⟨"arn:role/X", "alice", ["A", "B"]⟩
        (recordWith "arn:role/X" "alice" ["C", "A"]) ∧
    userMappingMatchesIAMMap ⟨"arn:user/Y", "bob", ["ops", "dev"]⟩
        (recordWith "arn:user/Y" "bob" ["dev", "ops"]) = true :=
  have h := mappingMatches_perm_invariant ⟨"arn:role/X", "alice", ["A", "B"]⟩
    ⟨"arn:user/Y", "bob", ["dev", "ops"]⟩ (recordWith "arn:role/X" "alice" ["C", "A"])
    ["B", "A"] ["ops", "dev"] ["A", "C"] (List.Perm.swap _ _ _) (List.Perm.swap _ _ _)
    (List.Perm.swap _ _ _)
  ⟨h.1, (h.2.2 "arn:user/Y" "bob" "ops" "dev").2⟩

/-! ## Theorems: MapRole and MapUser -/

theorem anyMatches_eq_true_iff (f : IAMIdentityMapping → Bool) (items : List IAMIdentityMapping) :
    anyMatches f items = true ↔ ∃ e ∈ items, f e = true := by
  induction items with
  | nil => simp [anyMatches]
  | cons x xs ih =>
    unfold anyMatches
    by_cases hx : f x = true
    · simp [hx]
    · simp [hx, ih]

theorem anyMatches_eq_false_iff (f : IAMIdentityMapping → Bool) (items : List IAMIdentityMapping) :
    anyMatches f items = false ↔ ∀ e ∈ items, f e = false := by
  rw [← Bool.not_eq_true, anyMatches_eq_true_iff]
  simp

theorem roleRecord_matches (mapping : RoleMapping) :
    roleMappingMatchesIAMMap mapping (roleRecord mapping) = true := by
  rw [roleMatches_iff]; simp [roleRecord]

theorem userRecord_matches (mapping : UserMapping) :
    userMappingMatchesIAMMap mapping (userRecord mapping) = true := by
  rw [userMatches_iff]; simp [userRecord]

theorem MapRole_listStore_no_match (Validate : RoleMapping → Option GoError)
    (listErr : Option GoError) (createErr : IAMIdentityMapping → Option GoError)
    (mapping : RoleMapping) (store : List IAMIdentityMapping) (calls : List ClientCall)
    (hv : Validate mapping = none) (hl : listErr = none)
    (hn : ∀ e ∈ store, roleMappingMatchesIAMMap mapping e = false) :
    MapRole Validate (listStore listErr createErr) mapping ⟨store, calls⟩ =
      (createErr (roleRecord mapping),
        ⟨if createErr (roleRecord mapping) = none then store ++ [roleRecord mapping] else store,
          calls ++ [.List, .Create (roleRecord mapping)]⟩) := by
  subst hl
  have ha := (anyMatches_eq_false_iff _ _).2 hn
  cases hc : createErr (roleRecord mapping) <;> simp [MapRole, listStore, hv, ha, hc]

theorem MapRole_listStore_match (Validate : RoleMapping → Option GoError)
    (listErr : Option GoError) (createErr : IAMIdentityMapping → Option GoError)
    (mapping : RoleMapping) (store : List IAMIdentityMapping) (calls : List ClientCall)
    (hv : Validate mapping = none) (hl : listErr = none)
    (hm : ∃ e ∈ store, roleMappingMatchesIAMMap mapping e = true) :
    MapRole Validate (listStore listErr createErr) mapping ⟨store, calls⟩ =
      (none, ⟨store, calls ++ [.List]⟩) := by
  subst hl
  have ha := (anyMatches_eq_true_iff _ _).2 hm
  simp [MapRole, listStore, hv, ha]

theorem MapUser_listStore_no_match (Validate : UserMapping → Option GoError)
    (listErr : Option GoError) (createErr : IAMIdentityMapping → Option GoError)
    (mapping : UserMapping) (store : List IAMIdentityMapping) (calls : List ClientCall)
    (hv : Validate mapping = none) (hl : listErr = none)
    (hn : ∀ e ∈ store, userMappingMatchesIAMMap mapping e = false) :
    MapUser Validate (listStore listErr createErr) mapping ⟨store, calls⟩ =
      (createErr (userRecord mapping),
        ⟨if createErr (userRecord mapping) = none then store ++ [userRecord mapping] else store,
          calls ++ [.List, .Create (userRecord mapping)]⟩) := by
  subst hl
  have ha := (anyMatches_eq_false_iff _ _).2 hn
  cases hc : createErr (userRecord mapping) <;> simp [MapUser, listStore, hv, ha, hc]

theorem MapUser_listStore_match (Validate : UserMapping → Option GoError)
    (listErr : Option GoError) (createErr : IAMIdentityMapping → Option GoError)
    (mapping : UserMapping) (store : List IAMIdentityMapping) (calls : List ClientCall)
    (hv : Validate mapping = none) (hl : listErr = none)
    (hm : ∃ e ∈ store, userMappingMatchesIAMMap mapping e = true) :
    MapUser Validate (listStore listErr createErr) mapping ⟨store, calls⟩ =
      (none, ⟨store, calls ++ [.List]⟩) := by
  subst hl
  have ha := (anyMatches_eq_true_iff _ _).2 hm
  simp [MapUser, listStore, hv, ha]

theorem MapRole_listStore_list_error (Validate : RoleMapping → Option GoError)
    (err : GoError) (createErr : IAMIdentityMapping → Option GoError)
    (mapping : RoleMapping) (store : List IAMIdentityMapping) (calls : List ClientCall)
    (hv : Validate mapping = none) :
    MapRole Validate (listStore (some err) createErr) mapping ⟨store, calls⟩ =
      (some (.Wrapf err "getting list of mappings: %w" [.cause]), ⟨store, calls ++ [.List]⟩) := by
  simp [MapRole, listStore, hv]

theorem MapUser_listStore_list_error (Validate : UserMapping → Option GoError)
    (err : GoError) (createErr : IAMIdentityMapping → Option GoError)
    (mapping : UserMapping) (store : List IAMIdentityMapping) (calls : List ClientCall)
    (hv : Validate mapping = none) :
    MapUser Validate (listStore (some err) createErr) mapping ⟨store, calls⟩ =
      (some (.Wrapf err "getting list of mappings: %w" [.cause]), ⟨store, calls ++ [.List]⟩) := by
  simp [MapUser, listStore, hv]

theorem MapRole_invalid {σ : Type} (Validate : RoleMapping → Option GoError) (client : Client σ)
    (mapping : RoleMapping) (w : ClientWorld σ) (err : GoError)
    (hv : Validate mapping = some err) :
    MapRole Validate client mapping w = (some err, w) := by
  simp [MapRole, hv]

theorem MapUser_invalid {σ : Type} (Validate : UserMapping → Option GoError) (client : Client σ)
    (mapping : UserMapping) (w : ClientWorld σ) (err : GoError)
    (hv : Validate mapping = some err) :
    MapUser Validate client mapping w = (some err, w) := by
  simp [MapUser, hv]

theorem MapRole_listStore_cases (Validate : RoleMapping → Option GoError)
    (listErr : Option GoError) (createErr : IAMIdentityMapping → Option GoError)
    (mapping : RoleMapping) (store : List IAMIdentityMapping) (calls : List ClientCall) :
    ((Validate mapping ≠ none ∨ listErr ≠ none ∨
        (∃ e ∈ store, roleMappingMatchesIAMMap mapping e = true) ∨
        createErr (roleRecord mapping) ≠ none) ∧
      (MapRole Validate (listStore listErr createErr) mapping ⟨store, calls⟩).2.store = store) ∨
    ((Validate mapping = none ∧ listErr = none ∧
        (∀ e ∈ store, roleMappingMatchesIAMMap mapping e = false) ∧
        createErr (roleRecord mapping) = none) ∧
      MapRole Validate (listStore listErr createErr) mapping ⟨store, calls⟩ =
        (none, ⟨store ++ [roleRecord mapping], calls ++ [.List, .Create (roleRecord mapping)]⟩)) := by
  cases hv : Validate mapping with
  | some err => left; exact ⟨Or.inl (by simp), by rw [MapRole_invalid _ _ _ _ err hv]⟩
  | none =>
    cases hl : listErr with
    | some err =>
      left; exact ⟨Or.inr (Or.inl (by simp)), by rw [MapRole_listStore_list_error _ _ _ _ _ _ hv]⟩
    | none =>
      cases ha : anyMatches (roleMappingMatchesIAMMap mapping) store with
      | true =>
        have hm := (anyMatches_eq_true_iff _ _).1 ha
        left
        exact ⟨Or.inr (Or.inr (Or.inl hm)),
          by rw [MapRole_listStore_match _ _ _ _ _ _ hv rfl hm]⟩
      | false =>
        have hn := (anyMatches_eq_false_iff _ _).1 ha
        cases hc : createErr (roleRecord mapping) with
        | some err =>
          left
          refine ⟨Or.inr (Or.inr (Or.inr (by simp))), ?_⟩
          rw [MapRole_listStore_no_match _ _ _ _ _ _ hv rfl hn]
          simp [hc]
        | none =>
          right
          refine ⟨⟨rfl, rfl, hn, rfl⟩, ?_⟩
          rw [MapRole_listStore_no_match _ _ _ _ _ _ hv rfl hn]
          simp [hc]

theorem MapUser_listStore_cases (Validate : UserMapping → Option GoError)
    (listErr : Option GoError) (createErr : IAMIdentityMapping → Option GoError)
    (mapping : UserMapping) (store : List IAMIdentityMapping) (calls : List ClientCall) :
    ((Validate mapping ≠ none ∨ listErr ≠ none ∨
        (∃ e ∈ store, userMappingMatchesIAMMap mapping e = true) ∨
        createErr (userRecord mapping) ≠ none) ∧
      (MapUser Validate (listStore listErr createErr) mapping ⟨store, calls⟩).2.store = store) ∨
    ((Validate mapping = none ∧ listErr = none ∧
        (∀ e ∈ store, userMappingMatchesIAMMap mapping e = false) ∧
        createErr (userRecord mapping) = none) ∧
      MapUser Validate (listStore listErr createErr) mapping ⟨store, calls⟩ =
        (none, ⟨store ++ [userRecord mapping], calls ++ [.List, .Create (userRecord mapping)]⟩)) := by
  cases hv : Validate mapping with
  | some err => left; exact ⟨Or.inl (by simp), by rw [MapUser_invalid _ _ _ _ err hv]⟩
  | none =>
    cases hl : listErr with
    | some err =>
      left; exact ⟨Or.inr (Or.inl (by simp)), by rw [MapUser_listStore_list_error _ _ _ _ _ _ hv]⟩
    | none =>
      cases ha : anyMatches (userMappingMatchesIAMMap mapping) store with
      | true =>
        have hm := (anyMatches_eq_true_iff _ _).1 ha
        left
        exact ⟨Or.inr (Or.inr (Or.inl hm)),
          by rw [MapUser_listStore_match _ _ _ _ _ _ hv rfl hm]⟩
      | false =>
        have hn := (anyMatches_eq_false_iff _ _).1 ha
        cases hc : createErr (userRecord mapping) with
        | some err =>
          left
          refine ⟨Or.inr (Or.inr (Or.inr (by simp))), ?_⟩
          rw [MapUser_listStore_no_match _ _ _ _ _ _ hv rfl hn]
          simp [hc]
        | none =>
          right
          refine ⟨⟨rfl, rfl, hn, rfl⟩, ?_⟩
          rw [MapUser_listStore_no_match _ _ _ _ _ _ hv rfl hn]
          simp [hc]

/-- C6: when `Validate` returns an error on the desired mapping, `MapRole` (and `MapUser`)
returns exactly that error and leaves the world as it was: the store is unchanged and the
call log gains neither a `List` nor a `Create`. This holds for every client. -/
theorem MapRole_MapUser_validation_error {σ : Type}
    (ValidateRole : RoleMapping → Option GoError) (ValidateUser : UserMapping → Option GoError)
    (client : Client σ) (role : RoleMapping) (user : UserMapping) (w : ClientWorld σ) :
    (∀ err, ValidateRole role = some err →
      MapRole ValidateRole client role w = (some err, w)) ∧
    (∀ err, ValidateUser user = some err →
      MapUser ValidateUser client user w = (some err, w)) :=
  ⟨fun err hv => MapRole_invalid ValidateRole client role w err hv,
    fun err hv => MapUser_invalid ValidateUser client user w err hv⟩

theorem MapRole_MapUser_validation_error_witness :
    MapRole validateRoleNonEmpty (listStore none (fun _ => none)) ⟨"", "alice", ["dev"]⟩
        ⟨[recordWith "arn:role/X" "alice" ["dev"]], []⟩
      = (some (.Errorf "role ARN is required" []),
          ⟨[recordWith "arn:role/X" "alice" ["dev"]], []⟩) ∧
    MapUser validateUserNonEmpty (listStore none (fun _ => none)) ⟨"", "bob", ["dev"]⟩
        ⟨[recordWith "arn:role/X" "alice" ["dev"]], []⟩
      = (some (.Errorf "user ARN is required" []),
          ⟨[recordWith "arn:role/X" "alice" ["dev"]], []⟩) :=
  have h := MapRole_MapUser_validation_error validateRoleNonEmpty validateUserNonEmpty
    (listStore none (fun _ => none)) ⟨"", "alice", ["dev"]⟩ ⟨"", "bob", ["dev"]⟩
    ⟨[recordWith "arn:role/X" "alice" ["dev"]], []⟩
  ⟨h.1 _ (by decide), h.2 _ (by decide)⟩

theorem roleMatches_imp_specEquivalent (mapping : RoleMapping) (record : IAMIdentityMapping)
    (hd : mapping.Groups.Nodup) (h : roleMappingMatchesIAMMap mapping record = true) :
    specEquivalentRole mapping record := by
  obtain ⟨h1, h2, h3, h4⟩ := (roleMatches_iff mapping record).1 h
  have hp : mapping.Groups.Perm record.Spec.Groups :=
    (List.subperm_of_subset hd h4).perm_of_length_le (le_of_eq h3.symm)
  exact ⟨h1, h2, Finset.ext fun g => by simp [hp.mem_iff]⟩

theorem specEquivalent_imp_roleMatches (mapping : RoleMapping) (record : IAMIdentityMapping)
    (hd : mapping.Groups.Nodup) (he : record.Spec.Groups.Nodup)
    (h : specEquivalentRole mapping record) :
    roleMappingMatchesIAMMap mapping record = true := by
  obtain ⟨h1, h2, h3⟩ := h
  have hm : ∀ g, g ∈ mapping.Groups ↔ g ∈ record.Spec.Groups := fun g => by
    have := congrArg (fun f => g ∈ f) h3
    simpa using this
  exact (roleMatches_iff mapping record).2
    ⟨h1, h2, (length_subset_iff_same_members _ _ hd he).2 hm⟩

theorem userMatches_imp_specEquivalent (mapping : UserMapping) (record : IAMIdentityMapping)
    (hd : mapping.Groups.Nodup) (h : userMappingMatchesIAMMap mapping record = true) :
    specEquivalentUser mapping record := by
  obtain ⟨h1, h2, h3, h4⟩ := (userMatches_iff mapping record).1 h
  have hp : mapping.Groups.Perm record.Spec.Groups :=
    (List.subperm_of_subset hd h4).perm_of_length_le (le_of_eq h3.symm)
  exact ⟨h1, h2, Finset.ext fun g => by simp [hp.mem_iff]⟩

theorem specEquivalent_imp_userMatches (mapping : UserMapping) (record : IAMIdentityMapping)
    (hd : mapping.Groups.Nodup) (he : record.Spec.Groups.Nodup)
    (h : specEquivalentUser mapping record) :
    userMappingMatchesIAMMap mapping record = true := by
  obtain ⟨h1, h2, h3⟩ := h
  have hm : ∀ g, g ∈ mapping.Groups ↔ g ∈ record.Spec.Groups := fun g => by
    have := congrArg (fun f => g ∈ f) h3
    simpa using this
  exact (userMatches_iff mapping record).2
    ⟨h1, h2, (length_subset_iff_same_members _ _ hd he).2 hm⟩

theorem MapRole_twice_listStore (Validate : RoleMapping → Option GoError)
    (mapping : RoleMapping) (store : List IAMIdentityMapping) (calls : List ClientCall)
    (hv : Validate mapping = none)
    (hn : ∀ e ∈ store, roleMappingMatchesIAMMap mapping e = false) :
    MapRole Validate (listStore none (fun _ => none)) mapping ⟨store, calls⟩ =
      (none, ⟨store ++ [roleRecord mapping], calls ++ [.List, .Create (roleRecord mapping)]⟩) ∧
    MapRole Validate (listStore none (fun _ => none)) mapping
        (MapRole Validate (listStore none (fun _ => none)) mapping ⟨store, calls⟩).2 =
      (none, ⟨store ++ [roleRecord mapping],
        calls ++ [.List, .Create (roleRecord mapping)] ++ [.List]⟩) := by
  have h1 := MapRole_listStore_no_match Validate none (fun _ => none) mapping store calls
    hv rfl hn
  simp only [if_true] at h1
  refine ⟨h1, ?_⟩
  rw [h1]
  exact MapRole_listStore_match Validate none (fun _ => none) mapping _ _ hv rfl
    ⟨roleRecord mapping, by simp, roleRecord_matches mapping⟩

theorem MapUser_twice_listStore (Validate : UserMapping → Option GoError)
    (mapping : UserMapping) (store : List IAMIdentityMapping) (calls : List ClientCall)
    (hv : Validate mapping = none)
    (hn : ∀ e ∈ store, userMappingMatchesIAMMap mapping e = false) :
    MapUser Validate (listStore none (fun _ => none)) mapping ⟨store, calls⟩ =
      (none, ⟨store ++ [userRecord mapping], calls ++ [.List, .Create (userRecord mapping)]⟩) ∧
    MapUser Validate (listStore none (fun _ => none)) mapping
        (MapUser Validate (listStore none (fun _ => none)) mapping ⟨store, calls⟩).2 =
      (none, ⟨store ++ [userRecord mapping],
        calls ++ [.List, .Create (userRecord mapping)] ++ [.List]⟩) := by
  have h1 := MapUser_listStore_no_match Validate none (fun _ => none) mapping store calls
    hv rfl hn
  simp only [if_true] at h1
  refine ⟨h1, ?_⟩
  rw [h1]
  exact MapUser_listStore_match Validate none (fun _ => none) mapping _ _ hv rfl
    ⟨userRecord mapping, by simp, userRecord_matches mapping⟩

/-- C2 (as stated) fails on a desired group list with a duplicate: the desired mapping
with groups `[a, a]` passes validation and the store `[record with groups [a, b]]` holds no
record equivalent to it in the sense of the specification, yet the matching function
accepts that record, so two successive `MapRole` calls issue `List` twice and create no
record at all; the same for `MapUser`. -/
theorem MapRole_MapUser_twice_creates_none_with_duplicate :
    (validateRoleNonEmpty ⟨"arn:role/X", "alice", ["a", "a"]⟩ = none ∧
      (∀ e ∈ [recordWith "arn:role/X" "alice" ["a", "b"]],
        ¬ specEquivalentRole ⟨"arn:role/X", "alice", ["a", "a"]⟩ e) ∧
      MapRole validateRoleNonEmpty (listStore none (fun _ => none))
          ⟨"arn:role/X", "alice", ["a", "a"]⟩
          (MapRole validateRoleNonEmpty (listStore none (fun _ => none))
            ⟨"arn:role/X", "alice", ["a", "a"]⟩
            ⟨[recordWith "arn:role/X" "alice" ["a", "b"]], []⟩).2 =
        (none, ⟨[recordWith "arn:role/X" "alice" ["a", "b"]], [.List, .List]⟩)) ∧
    (validateUserNonEmpty ⟨"arn:user/Y", "bob", ["a", "a"]⟩ = none ∧
      (∀ e ∈ [recordWith "arn:user/Y" "bob" ["a", "b"]],
        ¬ specEquivalentUser ⟨"arn:user/Y", "bob", ["a", "a"]⟩ e) ∧
      MapUser validateUserNonEmpty (listStore none (fun _ => none))
          ⟨"arn:user/Y", "bob", ["a", "a"]⟩
          (MapUser validateUserNonEmpty (listStore none (fun _ => none))
            ⟨"arn:user/Y", "bob", ["a", "a"]⟩
            ⟨[recordWith "arn:user/Y" "bob" ["a", "b"]], []⟩).2 =
        (none, ⟨[recordWith "arn:user/Y" "bob" ["a", "b"]], [.List, .List]⟩)) :=
  ⟨⟨by decide, by decide, rfl⟩, ⟨by decide, by decide, rfl⟩⟩

/-- C2 (as amended): over the list store whose `List` returns every record and whose
`Create` appends the submitted record, for a desired role mapping that passes `Validate`
and whose group list has no duplicate, and a store with no record equivalent to it (equal
identifier, equal user name, groups equal as sets), the first `MapRole` call issues `List`
and one `Create` and appends exactly the new record, and the second call on the resulting
world returns success, issues only `List` (no `Create`) and leaves the store as the first
call left it. For an arbitrary desired mapping the same holds whenever no stored record is
accepted by `roleMappingMatchesIAMMap`. The same holds for `MapUser`. -/
theorem MapRole_MapUser_twice_creates_once
    (ValidateRole : RoleMapping → Option GoError) (ValidateUser : UserMapping → Option GoError)
    (role : RoleMapping) (user : UserMapping) (store : List IAMIdentityMapping)
    (calls : List ClientCall) :
    (ValidateRole role = none → role.Groups.Nodup →
      (∀ e ∈ store, ¬ specEquivalentRole role e) →
      MapRole ValidateRole (listStore none (fun _ => none)) role ⟨store, calls⟩ =
        (none, ⟨store ++ [roleRecord role], calls ++ [.List, .Create (roleRecord role)]⟩) ∧
      MapRole ValidateRole (listStore none (fun _ => none)) role
          (MapRole ValidateRole (listStore none (fun _ => none)) role ⟨store, calls⟩).2 =
        (none, ⟨store ++ [roleRecord role],
          calls ++ [.List, .Create (roleRecord role)] ++ [.List]⟩)) ∧
    (ValidateUser user = none → user.Groups.Nodup →
      (∀ e ∈ store, ¬ specEquivalentUser user e) →
      MapUser ValidateUser (listStore none (fun _ => none)) user ⟨store, calls⟩ =
        (none, ⟨store ++ [userRecord user], calls ++ [.List, .Create (userRecord user)]⟩) ∧
      MapUser ValidateUser (listStore none (fun _ => none)) user
          (MapUser ValidateUser (listStore none (fun _ => none)) user ⟨store, calls⟩).2 =
        (none, ⟨store ++ [userRecord user],
          calls ++ [.List, .Create (userRecord user)] ++ [.List]⟩)) ∧
    (ValidateRole role = none → (∀ e ∈ store, roleMappingMatchesIAMMap role e = false) →
      MapRole ValidateRole (listStore none (fun _ => none)) role ⟨store, calls⟩ =
        (none, ⟨store ++ [roleRecord role], calls ++ [.List, .Create (roleRecord role)]⟩) ∧
      MapRole ValidateRole (listStore none (fun _ => none)) role
          (MapRole ValidateRole (listStore none (fun _ => none)) role ⟨store, calls⟩).2 =
        (none, ⟨store ++ [roleRecord role],
          calls ++ [.List, .Create (roleRecord role)] ++ [.List]⟩)) ∧
    (ValidateUser user = none → (∀ e ∈ store, userMappingMatchesIAMMap user e = false) →
      MapUser ValidateUser (listStore none (fun _ => none)) user ⟨store, calls⟩ =
        (none, ⟨store ++ [userRecord user], calls ++ [.List, .Create (userRecord user)]⟩) ∧
      MapUser ValidateUser (listStore none (fun _ => none)) user
          (MapUser ValidateUser (listStore none (fun _ => none)) user ⟨store, calls⟩).2 =
        (none, ⟨store ++ [userRecord user],
          calls ++ [.List, .Create (userRecord user)] ++ [.List]⟩)) := by
  refine ⟨?_, ?_, ?_, ?_⟩
  · intro hv hd hn
    refine MapRole_twice_listStore ValidateRole role store calls hv fun e he => ?_
    cases hm : roleMappingMatchesIAMMap role e with
    | false => rfl
    | true => exact absurd (roleMatches_imp_specEquivalent role e hd hm) (hn e he)
  · intro hv hd hn
    refine MapUser_twice_listStore ValidateUser user store calls hv fun e he => ?_
    cases hm : userMappingMatchesIAMMap user e with
    | false => rfl
    | true => exact absurd (userMatches_imp_specEquivalent user e hd hm) (hn e he)
  · intro hv hn
    exact MapRole_twice_listStore ValidateRole role store calls hv hn
  · intro hv hn
    exact MapUser_twice_listStore ValidateUser user store calls hv hn

theorem MapRole_MapUser_twice_creates_once_witness :
    (MapRole validateRoleNonEmpty (listStore none (fun _ => none)) exampleRole ⟨[], []⟩ =
        (none, ⟨[roleRecord exampleRole], [.List, .Create (roleRecord exampleRole)]⟩) ∧
      MapRole validateRoleNonEmpty (listStore none (fun _ => none)) exampleRole
          (MapRole validateRoleNonEmpty (listStore none (fun _ => none)) exampleRole ⟨[], []⟩).2 =
        (none, ⟨[roleRecord exampleRole],
          [.List, .Create (roleRecord exampleRole), .List]⟩)) ∧
    (MapUser validateUserNonEmpty (listStore none (fun _ => none)) exampleUser
          ⟨[roleRecord exampleRole, recordWith "arn:user/Y" "bob" ["dev"]], []⟩ =
        (none, ⟨[roleRecord exampleRole, recordWith "arn:user/Y" "bob" ["dev"],
            userRecord exampleUser],
          [.List, .Create (userRecord exampleUser)]⟩) ∧
      MapUser validateUserNonEmpty (listStore none (fun _ => none)) exampleUser
          (MapUser validateUserNonEmpty (listStore none (fun _ => none)) exampleUser
            ⟨[roleRecord exampleRole, recordWith "arn:user/Y" "bob" ["dev"]], []⟩).2 =
        (none, ⟨[roleRecord exampleRole, recordWith "arn:user/Y" "bob" ["dev"],
            userRecord exampleUser],
          [.List, .Create (userRecord exampleUser), .List]⟩)) :=
  ⟨(MapRole_MapUser_twice_creates_once validateRoleNonEmpty validateUserNonEmpty exampleRole
      exampleUser [] []).1 (by decide) (by decide) (by decide),
    (MapRole_MapUser_twice_creates_once validateRoleNonEmpty validateUserNonEmpty exampleRole
      exampleUser [roleRecord exampleRole, recordWith "arn:user/Y" "bob" ["dev"]] []).2.1
      (by decide) (by decide) (by decide)⟩



/-- C7 (as stated) fails on a desired group list with a duplicate: the stored record with
groups `[a]` is equivalent, in the sense of the specification, to the desired mapping with
groups `[a, a]`, yet the length guard rejects it and `MapRole` appends a second record; the
same for `MapUser`. -/
theorem MapRole_MapUser_creates_beside_equivalent_record :
    (specEquivalentRole ⟨"arn:role/X", "alice", ["a", "a"]⟩
        (recordWith "arn:role/X" "alice" ["a"]) ∧
      MapRole validateRoleNonEmpty (listStore none (fun _ => none))
          ⟨"arn:role/X", "alice", ["a", "a"]⟩ ⟨[recordWith "arn:role/X" "alice" ["a"]], []⟩ =
        (none, ⟨[recordWith "arn:role/X" "alice" ["a"],
            recordWith "arn:role/X" "alice" ["a", "a"]],
          [.List, .Create (recordWith "arn:role/X" "alice" ["a", "a"])]⟩)) ∧
    (specEquivalentUser ⟨"arn:user/Y", "bob", ["a", "a"]⟩
        (recordWith "arn:user/Y" "bob" ["a"]) ∧
      MapUser validateUserNonEmpty (listStore none (fun _ => none))
          ⟨"arn:user/Y", "bob", ["a", "a"]⟩ ⟨[recordWith "arn:user/Y" "bob" ["a"]], []⟩ =
        (none, ⟨[recordWith "arn:user/Y" "bob" ["a"],
            recordWith "arn:user/Y" "bob" ["a", "a"]],
          [.List, .Create (recordWith "arn:user/Y" "bob" ["a", "a"])]⟩)) :=
  ⟨⟨by decide, rfl⟩, ⟨by decide, rfl⟩⟩

/-- C7 (as amended): over the list store with injected `List` and `Create` failures, when
neither the desired group list nor the group list of any stored record has a duplicate,
after `MapRole` the store is either exactly the store before the call, or the store before
the call followed by one new record in the system namespace with generated-name prefix
"capa-iamauth-" carrying the desired ARN, user name and groups. It is unchanged whenever
validation fails, listing fails, some existing record (one or several) is equivalent to
the desired mapping, or `Create` fails; the record is appended, and the call succeeds,
exactly in the remaining case, where no existing record is equivalent. For arbitrary group
lists the same holds with "equivalent" read as "accepted by `roleMappingMatchesIAMMap`".
The same holds for `MapUser`. -/
theorem MapRole_MapUser_additive
    (ValidateRole : RoleMapping → Option GoError) (ValidateUser : UserMapping → Option GoError)
    (listErr : Option GoError) (createErr : IAMIdentityMapping → Option GoError)
    (role : RoleMapping) (user : UserMapping) (store : List IAMIdentityMapping)
    (calls : List ClientCall) :
    (role.Groups.Nodup → (∀ e ∈ store, e.Spec.Groups.Nodup) →
      (((ValidateRole role ≠ none ∨ listErr ≠ none ∨
            (∃ e ∈ store, specEquivalentRole role e) ∨
            createErr (roleRecord role) ≠ none) ∧
          (MapRole ValidateRole (listStore listErr createErr) role ⟨store, calls⟩).2.store
            = store) ∨
        ((ValidateRole role = none ∧ listErr = none ∧
            (∀ e ∈ store, ¬ specEquivalentRole role e) ∧
            createErr (roleRecord role) = none) ∧
          (MapRole ValidateRole (listStore listErr createErr) role ⟨store, calls⟩).1 = none ∧
          (MapRole ValidateRole (listStore listErr createErr) role ⟨store, calls⟩).2.store =
            store ++ [{ ObjectMeta := { Namespace := NamespaceSystem,
                                        GenerateName := "capa-iamauth-" }
                        Spec := { ARN := role.RoleARN, Username := role.UserName,
                                  Groups := role.Groups } }]))) ∧
    (user.Groups.Nodup → (∀ e ∈ store, e.Spec.Groups.Nodup) →
      (((ValidateUser user ≠ none ∨ listErr ≠ none ∨
            (∃ e ∈ store, specEquivalentUser user e) ∨
            createErr (userRecord user) ≠ none) ∧
          (MapUser ValidateUser (listStore listErr createErr) user ⟨store, calls⟩).2.store
            = store) ∨
        ((ValidateUser user = none ∧ listErr = none ∧
            (∀ e ∈ store, ¬ specEquivalentUser user e) ∧
            createErr (userRecord user) = none) ∧
          (MapUser ValidateUser (listStore listErr createErr) user ⟨store, calls⟩).1 = none ∧
          (MapUser ValidateUser (listStore listErr createErr) user ⟨store, calls⟩).2.store =
            store ++ [{ ObjectMeta := { Namespace := NamespaceSystem,
                                        GenerateName := "capa-iamauth-" }
                        Spec := { ARN := user.UserARN, Username := user.UserName,
                                  Groups := user.Groups } }]))) ∧
    (((ValidateRole role ≠ none ∨ listErr ≠ none ∨
          (∃ e ∈ store, roleMappingMatchesIAMMap role e = true) ∨
          createErr (roleRecord role) ≠ none) ∧
        (MapRole ValidateRole (listStore listErr createErr) role ⟨store, calls⟩).2.store = store) ∨
      ((ValidateRole role = none ∧ listErr = none ∧
          (∀ e ∈ store, roleMappingMatchesIAMMap role e = false) ∧
          createErr (roleRecord role) = none) ∧
        (MapRole ValidateRole (listStore listErr createErr) role ⟨store, calls⟩).1 = none ∧
        (MapRole ValidateRole (listStore listErr createErr) role ⟨store, calls⟩).2.store =
          store ++ [{ ObjectMeta := { Namespace := NamespaceSystem, GenerateName := "capa-iamauth-" }
                      Spec := { ARN := role.RoleARN, Username := role.UserName,
                                Groups := role.Groups } }])) ∧
    (((ValidateUser user ≠ none ∨ listErr ≠ none ∨
          (∃ e ∈ store, userMappingMatchesIAMMap user e = true) ∨
          createErr (userRecord user) ≠ none) ∧
        (MapUser ValidateUser (listStore listErr createErr) user ⟨store, calls⟩).2.store = store) ∨
      ((ValidateUser user = none ∧ listErr = none ∧
          (∀ e ∈ store, userMappingMatchesIAMMap user e = false) ∧
          createErr (userRecord user) = none) ∧
        (MapUser ValidateUser (listStore listErr createErr) user ⟨store, calls⟩).1 = none ∧
        (MapUser ValidateUser (listStore listErr createErr) user ⟨store, calls⟩).2.store =
          store ++ [{ ObjectMeta := { Namespace := NamespaceSystem, GenerateName := "capa-iamauth-" }
                      Spec := { ARN := user.UserARN, Username := user.UserName,
                                Groups := user.Groups } }])) := by
  refine ⟨?_, ?_, ?_, ?_⟩
  · intro hd hs
    rcases MapRole_listStore_cases ValidateRole listErr createErr role store calls
      with ⟨hc, hu⟩ | ⟨⟨hv, hl, hn, hc⟩, he⟩
    · refine Or.inl ⟨?_, hu⟩
      rcases hc with h | h | ⟨e, hmem, hm⟩ | h
      · exact Or.inl h
      · exact Or.inr (Or.inl h)
      · exact Or.inr (Or.inr (Or.inl ⟨e, hmem, roleMatches_imp_specEquivalent role e hd hm⟩))
      · exact Or.inr (Or.inr (Or.inr h))
    · refine Or.inr ⟨⟨hv, hl, fun e hmem heq => ?_, hc⟩, by rw [he], by rw [he]; rfl⟩
      have hm := specEquivalent_imp_roleMatches role e hd (hs e hmem) heq
      rw [hn e hmem] at hm
      exact Bool.false_ne_true hm
  · intro hd hs
    rcases MapUser_listStore_cases ValidateUser listErr createErr user store calls
      with ⟨hc, hu⟩ | ⟨⟨hv, hl, hn, hc⟩, he⟩
    · refine Or.inl ⟨?_, hu⟩
      rcases hc with h | h | ⟨e, hmem, hm⟩ | h
      · exact Or.inl h
      · exact Or.inr (Or.inl h)
      · exact Or.inr (Or.inr (Or.inl ⟨e, hmem, userMatches_imp_specEquivalent user e hd hm⟩))
      · exact Or.inr (Or.inr (Or.inr h))
    · refine Or.inr ⟨⟨hv, hl, fun e hmem heq => ?_, hc⟩, by rw [he], by rw [he]; rfl⟩
      have hm := specEquivalent_imp_userMatches user e hd (hs e hmem) heq
      rw [hn e hmem] at hm
      exact Bool.false_ne_true hm
  · rcases MapRole_listStore_cases ValidateRole listErr createErr role store calls with h | ⟨h, he⟩
    · exact Or.inl h
    · exact Or.inr ⟨h, by rw [he], by rw [he]; rfl⟩
  · rcases MapUser_listStore_cases ValidateUser listErr createErr user store calls with h | ⟨h, he⟩
    · exact Or.inl h
    · exact Or.inr ⟨h, by rw [he], by rw [he]; rfl⟩

theorem MapRole_MapUser_additive_witness :
    (MapRole validateRoleNonEmpty (listStore none (fun _ => none)) exampleRole
        ⟨[recordWith "arn:role/X" "alice" ["system:masters"],
          recordWith "arn:role/X" "alice" ["system:masters"]], []⟩).2.store
      = [recordWith "arn:role/X" "alice" ["system:masters"],
          recordWith "arn:role/X" "alice" ["system:masters"]] ∧
    (MapUser validateUserNonEmpty (listStore none (fun _ => none)) exampleUser
        ⟨[recordWith "arn:role/X" "alice" ["system:masters"]], []⟩).2.store
      = [recordWith "arn:role/X" "alice" ["system:masters"],
          recordWith "arn:user/Y" "bob" ["dev", "ops"]] := by
  have h1 := (MapRole_MapUser_additive validateRoleNonEmpty validateUserNonEmpty none
    (fun _ => none) exampleRole exampleUser
    [recordWith "arn:role/X" "alice" ["system:masters"],
      recordWith "arn:role/X" "alice" ["system:masters"]] []).1 (by decide) (by decide)
  have h2 := (MapRole_MapUser_additive validateRoleNonEmpty validateUserNonEmpty none
    (fun _ => none) exampleRole exampleUser
    [recordWith "arn:role/X" "alice" ["system:masters"]] []).2.1 (by decide) (by decide)
  constructor
  · rcases h1 with h | h
    · exact h.2
    · exact absurd (by decide) (h.1.2.2.1 _ (List.mem_cons_self _ _))
  · rcases h2 with h | h
    · exact absurd h.1 (by decide)
    · exact h.2.2

/-! ## Theorems: releaseAddresses and allocateAddress -/

theorem delete_calls {σ : Type} (s : Service σ) (ip : Address) (w : EC2World σ) :
    (delete s ip w).2.calls = w.calls ++ [.ReleaseAddress ip.AllocationId] := by
  unfold delete
  rcases h : s.ReleaseAddress ip.AllocationId w.remote with ⟨e, r⟩
  cases e <;> simp

theorem retryLoop_delete_calls {σ : Type} (s : Service σ) (ip : Address) (codes : List String)
    (steps : Nat) (last : Option GoError) (w : EC2World σ) :
    ∃ n, n ≤ steps ∧
      (retryLoop (delete s ip) codes steps last w).2.calls =
        w.calls ++ List.replicate n (EC2Call.ReleaseAddress ip.AllocationId) := by
  induction steps generalizing last w with
  | zero => exact ⟨0, le_refl 0, by simp [retryLoop]⟩
  | succ k ih =>
    have hc := delete_calls s ip w
    rcases hd : delete s ip w with ⟨⟨ok, e⟩, w1⟩
    rw [hd] at hc
    simp only at hc
    have step : ∀ last1, ∃ n, n ≤ k + 1 ∧
        (retryLoop (delete s ip) codes k last1 w1).2.calls =
          w.calls ++ List.replicate n (EC2Call.ReleaseAddress ip.AllocationId) := by
      intro last1
      obtain ⟨n, hn, hcalls⟩ := ih last1 w1
      refine ⟨n + 1, Nat.succ_le_succ hn, ?_⟩
      rw [hcalls, hc, List.replicate_succ, List.append_assoc]
      rfl
    have one : ∃ n, n ≤ k + 1 ∧
        w1.calls = w.calls ++ List.replicate n (EC2Call.ReleaseAddress ip.AllocationId) :=
      ⟨1, Nat.succ_le_succ (Nat.zero_le k), by rw [hc]; rfl⟩
    cases ok with
    | true => simpa [retryLoop, hd] using one
    | false =>
      cases e with
      | none => simpa [retryLoop, hd] using step last
      | some err =>
        by_cases hr : isRetryable err codes = true
        · simpa [retryLoop, hd, hr] using step (some err)
        · simpa [retryLoop, hd, hr] using one

theorem releaseLoop_cons_associated {σ : Type} (s : Service σ) (b : Backoff) (ip : Address)
    (rest : List Address) (w : EC2World σ) (a : String) (ha : ip.AssociationId = some a) :
    releaseLoop s b (ip :: rest) w = (some (stillAssociatedError ip a), w) := by
  simp [releaseLoop, ha]

theorem releaseLoop_cons_failed {σ : Type} (s : Service σ) (b : Backoff) (ip : Address)
    (rest : List Address) (w w1 : EC2World σ) (err : GoError) (ha : ip.AssociationId = none)
    (hw : WaitForWithRetryable b (delete s ip) [errorAuthFailure, errorInUseIPAddress] w
      = (some err, w1)) :
    releaseLoop s b (ip :: rest) w = (some (releaseFailedError ip err), w1) := by
  simp [releaseLoop, ha, hw]

theorem releaseLoop_cons_released {σ : Type} (s : Service σ) (b : Backoff) (ip : Address)
    (rest : List Address) (w w1 : EC2World σ) (ha : ip.AssociationId = none)
    (hw : WaitForWithRetryable b (delete s ip) [errorAuthFailure, errorInUseIPAddress] w
      = (none, w1)) :
    releaseLoop s b (ip :: rest) w =
      releaseLoop s b rest
        { w1 with
          infos := w1.infos ++
            [("released elastic IP %q with allocation ID %q", [ip.PublicIp, ip.AllocationId])] } := by
  simp [releaseLoop, ha, hw]

theorem releaseLoop_append {σ : Type} (s : Service σ) (b : Backoff) (pre post : List Address)
    (w : EC2World σ) :
    releaseLoop s b (pre ++ post) w =
      match releaseLoop s b pre w with
      | (some e, w1) => (some e, w1)
      | (none, w1) => releaseLoop s b post w1 := by
  induction pre generalizing w with
  | nil => simp [releaseLoop]
  | cons ip rest ih =>
    rw [List.cons_append]
    cases ha : ip.AssociationId with
    | some a =>
      rw [releaseLoop_cons_associated s b ip _ w a ha, releaseLoop_cons_associated s b ip _ w a ha]
    | none =>
      rcases hw : WaitForWithRetryable b (delete s ip) [errorAuthFailure, errorInUseIPAddress] w
        with ⟨e, w1⟩
      cases e with
      | some err =>
        rw [releaseLoop_cons_failed s b ip _ w w1 err ha hw,
          releaseLoop_cons_failed s b ip _ w w1 err ha hw]
      | none =>
        rw [releaseLoop_cons_released s b ip _ w w1 ha hw,
          releaseLoop_cons_released s b ip _ w w1 ha hw]
        exact ih _

/-- The log after the loop is the log before it followed by the attempts made on a
prefix of the addresses, address by address in list order; the whole list is covered when
the loop returns no error, and no address is tried more often than the backoff allows. -/
theorem releaseLoop_calls {σ : Type} (s : Service σ) (b : Backoff) (addresses : List Address)
    (w : EC2World σ) :
    ∃ counts : List Nat, counts.length ≤ addresses.length ∧ (∀ n ∈ counts, n ≤ b.Steps) ∧
      ((releaseLoop s b addresses w).1 = none → counts.length = addresses.length) ∧
      (releaseLoop s b addresses w).2.calls = w.calls ++ releaseAttempts addresses counts := by
  induction addresses generalizing w with
  | nil => exact ⟨[], by simp, by simp, by simp, by simp [releaseLoop, releaseAttempts]⟩
  | cons ip rest ih =>
    cases ha : ip.AssociationId with
    | some a =>
      rw [releaseLoop_cons_associated s b ip _ w a ha]
      exact ⟨[], by simp, by simp, by simp, by simp [releaseAttempts]⟩
    | none =>
      obtain ⟨n, hn, hcalls⟩ :=
        retryLoop_delete_calls s ip [errorAuthFailure, errorInUseIPAddress] b.Steps none w
      rcases hw : WaitForWithRetryable b (delete s ip) [errorAuthFailure, errorInUseIPAddress] w
        with ⟨e, w1⟩
      have hw1 : w1.calls = w.calls ++ List.replicate n (EC2Call.ReleaseAddress ip.AllocationId) := by
        have : retryLoop (delete s ip) [errorAuthFailure, errorInUseIPAddress] b.Steps none w
            = (e, w1) := hw
        rw [this] at hcalls
        exact hcalls
      cases e with
      | some err =>
        rw [releaseLoop_cons_failed s b ip _ w w1 err ha hw]
        refine ⟨[n], by simp, by simpa using hn, by simp, ?_⟩
        simp [releaseAttempts, hw1]
      | none =>
        rw [releaseLoop_cons_released s b ip _ w w1 ha hw]
        obtain ⟨counts, hlen, hbound, hall, hc⟩ := ih
          { w1 with
            infos := w1.infos ++
              [("released elastic IP %q with allocation ID %q", [ip.PublicIp, ip.AllocationId])] }
        refine ⟨n :: counts, by simpa using hlen, ?_, ?_, ?_⟩
        · intro m hm
          rcases List.mem_cons.1 hm with h | h
          · rw [h]; exact hn
          · exact hbound m h
        · intro h; simpa using hall h
        · rw [hc]
          simp [releaseAttempts, hw1]

theorem releaseAttempts_mem (addresses : List Address) (counts : List Nat) (c : EC2Call)
    (hc : c ∈ releaseAttempts addresses counts) :
    ∃ a ∈ addresses, c = .ReleaseAddress a.AllocationId := by
  induction addresses generalizing counts with
  | nil => simp [releaseAttempts] at hc
  | cons ip rest ih =>
    cases counts with
    | nil => simp [releaseAttempts] at hc
    | cons n ns =>
      simp only [releaseAttempts, List.zipWith_cons_cons, List.flatten_cons, List.mem_append] at hc
      rcases hc with h | h
      · exact ⟨ip, by simp, (List.eq_of_mem_replicate h)⟩
      · obtain ⟨a, ha, hca⟩ := ih ns h
        exact ⟨a, List.mem_cons_of_mem _ ha, hca⟩

theorem split_at_index (addresses : List Address) (i : Nat) (ip : Address)
    (hi : addresses[i]? = some ip) :
    addresses = addresses.take i ++ ip :: addresses.drop (i + 1) ∧
      (addresses.take i).length = i := by
  induction addresses generalizing i with
  | nil => simp at hi
  | cons a t ih =>
    cases i with
    | zero => simp at hi; simp [hi]
    | succ j =>
      simp at hi
      have h := ih j hi
      exact ⟨by simpa using h.1, by simpa using h.2⟩

theorem releaseAddresses_described {σ : Type} (s : Service σ) (b : Backoff)
    (clusterName : String) (w : EC2World σ) (addresses : List Address) (r : σ)
    (hdesc : s.DescribeAddresses clusterName w.remote = (.ok addresses, r)) :
    releaseAddresses s b clusterName w =
      releaseLoop s b addresses
        { w with remote := r, calls := w.calls ++ [.DescribeAddresses clusterName] } := by
  simp [releaseAddresses, hdesc]

/-- C3: when the describe call returns `addresses` and the address at position `i` has an
association id, `releaseAddresses` returns an error; that error is the still-associated
error of line 50 for this address when the loop over the addresses before position `i`
returned no error; the world it leaves is the world the loop over the addresses before
position `i` leaves, so that the `ReleaseAddress` calls issued are attempts on addresses
at positions below `i` only; with pairwise distinct allocation ids no `ReleaseAddress`
call carries the allocation id of this address or of any address after it. -/
theorem releaseAddresses_still_associated {σ : Type} (s : Service σ) (b : Backoff)
    (clusterName : String) (w : EC2World σ) (addresses : List Address) (r : σ) (i : Nat)
    (ip : Address) (associationId : String)
    (hdesc : s.DescribeAddresses clusterName w.remote = (.ok addresses, r))
    (hi : addresses[i]? = some ip) (ha : ip.AssociationId = some associationId) :
    (releaseAddresses s b clusterName w).1 ≠ none ∧
    ((releaseLoop s b (addresses.take i)
        { w with remote := r, calls := w.calls ++ [.DescribeAddresses clusterName] }).1 = none →
      (releaseAddresses s b clusterName w).1 = some (stillAssociatedError ip associationId)) ∧
    (releaseAddresses s b clusterName w).2 =
      (releaseLoop s b (addresses.take i)
        { w with remote := r, calls := w.calls ++ [.DescribeAddresses clusterName] }).2 ∧
    ∃ counts : List Nat, counts.length ≤ i ∧
      (releaseAddresses s b clusterName w).2.calls =
        w.calls ++ .DescribeAddresses clusterName :: releaseAttempts (addresses.take i) counts ∧
      ((addresses.map (fun a => a.AllocationId)).Nodup → ∀ a ∈ addresses.drop i,
        EC2Call.ReleaseAddress a.AllocationId ∉ releaseAttempts (addresses.take i) counts) := by
  obtain ⟨hsplit, hlen⟩ := split_at_index addresses i ip hi
  have hres : releaseAddresses s b clusterName w =
      match releaseLoop s b (addresses.take i)
        { w with remote := r, calls := w.calls ++ [.DescribeAddresses clusterName] } with
      | (some e, w1) => (some e, w1)
      | (none, w1) => releaseLoop s b (ip :: addresses.drop (i + 1)) w1 := by
    rw [releaseAddresses_described s b clusterName w addresses r hdesc]
    conv_lhs => rw [hsplit]
    exact releaseLoop_append s b _ _ _
  obtain ⟨counts, hcl, -, -, hcalls⟩ := releaseLoop_calls s b (addresses.take i)
    { w with remote := r, calls := w.calls ++ [.DescribeAddresses clusterName] }
  rcases hpre : releaseLoop s b (addresses.take i)
    { w with remote := r, calls := w.calls ++ [.DescribeAddresses clusterName] } with ⟨e, w1⟩
  rw [hpre] at hres hcalls
  have hfinal : (releaseAddresses s b clusterName w).1 ≠ none ∧
      (e = none → (releaseAddresses s b clusterName w).1
        = some (stillAssociatedError ip associationId)) ∧
      (releaseAddresses s b clusterName w).2 = w1 := by
    cases e with
    | some err => simp [hres]
    | none =>
      simp only at hres
      rw [releaseLoop_cons_associated s b ip _ w1 associationId ha] at hres
      simp [hres]
  refine ⟨hfinal.1, hfinal.2.1, hfinal.2.2, counts, by rw [← hlen]; exact hcl, ?_, ?_⟩
  · rw [hfinal.2.2, hcalls]
    simp
  · intro hnd a hmem hcall
    obtain ⟨a1, ha1, heq⟩ := releaseAttempts_mem _ _ _ hcall
    have hid : a.AllocationId = a1.AllocationId := by injection heq
    rw [← List.take_append_drop i addresses, List.map_append, List.nodup_append] at hnd
    exact hnd.2.2 (List.mem_map_of_mem _ ha1) (hid ▸ List.mem_map_of_mem _ hmem)

theorem releaseAddresses_still_associated_witness :
    (releaseAddresses (scriptedService addressesWithAssociated (fun _ _ => none)) ⟨4⟩
        "cluster-a" freshWorld).1
      = some (stillAssociatedError
          { AllocationId := "eipalloc-2", PublicIp := "192.0.2.2",
            AssociationId := some "eipassoc-2" } "eipassoc-2") ∧
    (releaseAddresses (scriptedService addressesWithAssociated (fun _ _ => none)) ⟨4⟩
        "cluster-a" freshWorld).2.calls
      = [.DescribeAddresses "cluster-a", .ReleaseAddress "eipalloc-1"] :=
  have h := releaseAddresses_still_associated
    (scriptedService addressesWithAssociated (fun _ _ => none)) ⟨4⟩ "cluster-a" freshWorld
    addressesWithAssociated 0 1
    { AllocationId := "eipalloc-2", PublicIp := "192.0.2.2", AssociationId := some "eipassoc-2" }
    "eipassoc-2" rfl rfl rfl
  ⟨h.2.1 (by decide), h.2.2.1.symm ▸ (by decide)⟩

/-- C4: when the describe call returns `addresses`, the loop over the addresses before
position `i` returns no error (every earlier release succeeded) and the retried release of
the unassociated address at position `i` ends in the error `err`, then `releaseAddresses`
returns the error of line 72, which wraps `err` and names the allocation id of the address
at position `i`; the world it leaves is the one that failed release left; and the calls
it issued after the describe call are the attempts on the addresses at positions
`0 .. i-1`, address by address in query order, followed by the attempts on the address at
position `i`, at most `Steps` each: no address after position `i` is attempted. -/
theorem releaseAddresses_stops_at_first_failure {σ : Type} (s : Service σ) (b : Backoff)
    (clusterName : String) (w : EC2World σ) (addresses : List Address) (r : σ) (i : Nat)
    (ip : Address) (wi wf : EC2World σ) (err : GoError)
    (hdesc : s.DescribeAddresses clusterName w.remote = (.ok addresses, r))
    (hi : addresses[i]? = some ip) (ha : ip.AssociationId = none)
    (hpre : releaseLoop s b (addresses.take i)
        { w with remote := r, calls := w.calls ++ [.DescribeAddresses clusterName] } = (none, wi))
    (hfail : WaitForWithRetryable b (delete s ip) [errorAuthFailure, errorInUseIPAddress] wi
        = (some err, wf)) :
    releaseAddresses s b clusterName w = (some (releaseFailedError ip err), wf) ∧
    (releaseFailedError ip err).wraps err = true ∧
    (releaseFailedError ip err).names ip.AllocationId = true ∧
    ∃ (counts : List Nat) (n : Nat), counts.length = i ∧ (∀ m ∈ counts, m ≤ b.Steps) ∧
      n ≤ b.Steps ∧
      wf.calls = w.calls ++ .DescribeAddresses clusterName ::
        (releaseAttempts (addresses.take i) counts ++
          List.replicate n (EC2Call.ReleaseAddress ip.AllocationId)) := by
  obtain ⟨hsplit, hlen⟩ := split_at_index addresses i ip hi
  have hres : releaseAddresses s b clusterName w = (some (releaseFailedError ip err), wf) := by
    rw [releaseAddresses_described s b clusterName w addresses r hdesc]
    conv_lhs => rw [hsplit]
    rw [releaseLoop_append, hpre]
    exact releaseLoop_cons_failed s b ip _ wi wf err ha hfail
  obtain ⟨counts, -, hbound, hall, hcalls⟩ := releaseLoop_calls s b (addresses.take i)
    { w with remote := r, calls := w.calls ++ [.DescribeAddresses clusterName] }
  rw [hpre] at hall hcalls
  obtain ⟨n, hn, hn2⟩ :=
    retryLoop_delete_calls s ip [errorAuthFailure, errorInUseIPAddress] b.Steps none wi
  have hfail2 : retryLoop (delete s ip) [errorAuthFailure, errorInUseIPAddress] b.Steps none wi
      = (some err, wf) := hfail
  rw [hfail2] at hn2
  refine ⟨hres, by simp [releaseFailedError, GoError.wraps],
    by simp [releaseFailedError, GoError.names], counts, n, ?_, hbound, hn, ?_⟩
  · rw [hall rfl, hlen]
  · simp only at hn2 hcalls
    rw [hn2, hcalls]
    simp

theorem releaseAddresses_stops_at_first_failure_witness :
    releaseAddresses (scriptedService addressesFree fatalOnThirdCall) ⟨4⟩ "cluster-a" freshWorld
      = (some (releaseFailedError (freeAddress "eipalloc-2" "192.0.2.2")
            (.sdk (some "InvalidAllocationID.NotFound") "no such allocation")),
          { remote := 3
            calls := [.DescribeAddresses "cluster-a", .ReleaseAddress "eipalloc-1",
              .ReleaseAddress "eipalloc-2", .ReleaseAddress "eipalloc-2"]
            infos := [("released elastic IP %q with allocation ID %q",
              ["192.0.2.1", "eipalloc-1"])] }) :=
  (releaseAddresses_stops_at_first_failure (scriptedService addressesFree fatalOnThirdCall) ⟨4⟩
    "cluster-a" freshWorld addressesFree 0 1 (freeAddress "eipalloc-2" "192.0.2.2")
    { remote := 1
      calls := [.DescribeAddresses "cluster-a", .ReleaseAddress "eipalloc-1"]
      infos := [("released elastic IP %q with allocation ID %q", ["192.0.2.1", "eipalloc-1"])] }
    { remote := 3
      calls := [.DescribeAddresses "cluster-a", .ReleaseAddress "eipalloc-1",
        .ReleaseAddress "eipalloc-2", .ReleaseAddress "eipalloc-2"]
      infos := [("released elastic IP %q with allocation ID %q", ["192.0.2.1", "eipalloc-1"])] }
    (.sdk (some "InvalidAllocationID.NotFound") "no such allocation")
    rfl rfl rfl rfl rfl).1

theorem isRetryable_of_code (e : GoError)
    (hc : e.code = some errorAuthFailure ∨ e.code = some errorInUseIPAddress) :
    isRetryable e [errorAuthFailure, errorInUseIPAddress] = true := by
  unfold isRetryable
  rcases hc with h | h <;> simp [h]

theorem retryLoop_delete_retry {σ : Type} (s : Service σ) (ip : Address) (codes : List String)
    (k : Nat) (last : Option GoError) (w : EC2World σ) (e : GoError) (r : σ)
    (h : s.ReleaseAddress ip.AllocationId w.remote = (some e, r))
    (hr : isRetryable e codes = true) :
    retryLoop (delete s ip) codes (k + 1) last w =
      retryLoop (delete s ip) codes k (some e)
        { w with remote := r, calls := w.calls ++ [.ReleaseAddress ip.AllocationId] } := by
  simp [retryLoop, delete, h, hr]

theorem retryLoop_delete_released {σ : Type} (s : Service σ) (ip : Address) (codes : List String)
    (k : Nat) (last : Option GoError) (w : EC2World σ) (r : σ)
    (h : s.ReleaseAddress ip.AllocationId w.remote = (none, r)) :
    retryLoop (delete s ip) codes (k + 1) last w =
      (none, { w with remote := r, calls := w.calls ++ [.ReleaseAddress ip.AllocationId] }) := by
  simp [retryLoop, delete, h]

/-- C8: with the retry executor modelled from the spec and a backoff that allows at least
three attempts, when the describe call returns the single unassociated address `ip` and
`ReleaseAddress` for it fails twice with a retryable code (`errorAuthFailure` or
`errorInUseIPAddress`) and then succeeds, `releaseAddresses` returns no error and has
issued, after the describe call, exactly three `ReleaseAddress` calls for `ip`. -/
theorem releaseAddresses_retry_absorbed {σ : Type} (s : Service σ) (b : Backoff)
    (clusterName : String) (w : EC2World σ) (ip : Address) (r0 r1 r2 r3 : σ) (e1 e2 : GoError)
    (hdesc : s.DescribeAddresses clusterName w.remote = (.ok [ip], r0))
    (ha : ip.AssociationId = none)
    (h1 : s.ReleaseAddress ip.AllocationId r0 = (some e1, r1))
    (hc1 : e1.code = some errorAuthFailure ∨ e1.code = some errorInUseIPAddress)
    (h2 : s.ReleaseAddress ip.AllocationId r1 = (some e2, r2))
    (hc2 : e2.code = some errorAuthFailure ∨ e2.code = some errorInUseIPAddress)
    (h3 : s.ReleaseAddress ip.AllocationId r2 = (none, r3))
    (hsteps : 3 ≤ b.Steps) :
    releaseAddresses s b clusterName w =
      (none,
        { remote := r3
          calls := w.calls ++ [.DescribeAddresses clusterName,
            .ReleaseAddress ip.AllocationId, .ReleaseAddress ip.AllocationId,
            .ReleaseAddress ip.AllocationId]
          infos := w.infos ++
            [("released elastic IP %q with allocation ID %q", [ip.PublicIp, ip.AllocationId])] }) := by
  obtain ⟨k, hk⟩ : ∃ k, b.Steps = k + 1 + 1 + 1 := ⟨b.Steps - 3, by omega⟩
  have hw : WaitForWithRetryable b (delete s ip) [errorAuthFailure, errorInUseIPAddress]
      { w with remote := r0, calls := w.calls ++ [.DescribeAddresses clusterName] } =
      (none,
        { remote := r3
          calls := w.calls ++ [.DescribeAddresses clusterName,
            .ReleaseAddress ip.AllocationId, .ReleaseAddress ip.AllocationId,
            .ReleaseAddress ip.AllocationId]
          infos := w.infos }) := by
    unfold WaitForWithRetryable
    rw [hk, retryLoop_delete_retry s ip _ _ _ _ e1 r1 h1 (isRetryable_of_code e1 hc1),
      retryLoop_delete_retry s ip _ _ _ _ e2 r2 h2 (isRetryable_of_code e2 hc2),
      retryLoop_delete_released s ip _ _ _ _ r3 h3]
    simp
  rw [releaseAddresses_described s b clusterName w [ip] r0 hdesc,
    releaseLoop_cons_released s b ip [] _ _ ha hw]
  simp [releaseLoop]

theorem releaseAddresses_retry_absorbed_witness :
    releaseAddresses (scriptedService [freeAddress "eipalloc-1" "192.0.2.1"] failTwiceThenSucceed)
        ⟨3⟩ "cluster-a" freshWorld =
      (none,
        { remote := 3
          calls := [.DescribeAddresses "cluster-a", .ReleaseAddress "eipalloc-1",
            .ReleaseAddress "eipalloc-1", .ReleaseAddress "eipalloc-1"]
          infos := [("released elastic IP %q with allocation ID %q",
            ["192.0.2.1", "eipalloc-1"])] }) :=
  releaseAddresses_retry_absorbed
    (scriptedService [freeAddress "eipalloc-1" "192.0.2.1"] failTwiceThenSucceed) ⟨3⟩
    "cluster-a" freshWorld (freeAddress "eipalloc-1" "192.0.2.1") 0 1 2 3
    (.sdk (some errorAuthFailure) "not yet authorized")
    (.sdk (some errorAuthFailure) "not yet authorized")
    rfl rfl rfl (Or.inl rfl) rfl (Or.inl rfl) rfl (by decide)

/-- C9: when `AllocateAddress` succeeds with allocation id `A`, then (1) if `createTags`
fails with `tagErr`, `allocateAddress` returns the empty allocation id and the error of
line 34, which wraps `tagErr` and names `A`, having issued `AllocateAddress` and
`createTags` for `A` and no `ReleaseAddress` call; (2) if `createTags` succeeds, it returns
`A` and no error, having called `createTags` with the cluster name, `A` and
`ResourceLifecycleOwned`. -/
theorem allocateAddress_tagging {σ : Type} (s : Service σ) (clusterName : String)
    (w : EC2World σ) (A : String) (r1 : σ)
    (hAlloc : s.AllocateAddress "vpc" w.remote = (.ok A, r1)) :
    (∀ tagErr r2, s.createTags clusterName A ResourceLifecycleOwned [] r1 = (some tagErr, r2) →
      allocateAddress s clusterName w =
        (("", some (.Wrapf tagErr "failed to tag elastic IP %q" [.str A])),
          { remote := r2
            calls := w.calls ++ [.AllocateAddress "vpc",
              .createTags clusterName A ResourceLifecycleOwned []]
            infos := w.infos }) ∧
      (GoError.Wrapf tagErr "failed to tag elastic IP %q" [.str A]).wraps tagErr = true ∧
      (GoError.Wrapf tagErr "failed to tag elastic IP %q" [.str A]).names A = true ∧
      ∀ id, EC2Call.ReleaseAddress id ∉
        [EC2Call.AllocateAddress "vpc", .createTags clusterName A ResourceLifecycleOwned []]) ∧
    (∀ r2, s.createTags clusterName A ResourceLifecycleOwned [] r1 = (none, r2) →
      allocateAddress s clusterName w =
        ((A, none),
          { remote := r2
            calls := w.calls ++ [.AllocateAddress "vpc",
              .createTags clusterName A ResourceLifecycleOwned []]
            infos := w.infos })) := by
  constructor
  · intro tagErr r2 hTag
    refine ⟨by simp [allocateAddress, hAlloc, hTag], by simp [GoError.wraps],
      by simp [GoError.names], by simp⟩
  · intro r2 hTag
    simp [allocateAddress, hAlloc, hTag]

theorem allocateAddress_tagging_witness :
    allocateAddress (scriptedService [] (fun _ _ => none)) "untaggable" freshWorld =
      (("", some (.Wrapf (.sdk (some "UnauthorizedOperation") "denied")
          "failed to tag elastic IP %q" [.str "eipalloc-new"])),
        { remote := 0
          calls := [.AllocateAddress "vpc",
            .createTags "untaggable" "eipalloc-new" ResourceLifecycleOwned []]
          infos := [] }) ∧
    allocateAddress (scriptedService [] (fun _ _ => none)) "cluster-a" freshWorld =
      (("eipalloc-new", none),
        { remote := 0
          calls := [.AllocateAddress "vpc",
            .createTags "cluster-a" "eipalloc-new" ResourceLifecycleOwned []]
          infos := [] }) :=
  ⟨((allocateAddress_tagging (scriptedService [] (fun _ _ => none)) "untaggable" freshWorld
      "eipalloc-new" 0 rfl).1 _ _ rfl).1,
    (allocateAddress_tagging (scriptedService [] (fun _ _ => none)) "cluster-a" freshWorld
      "eipalloc-new" 0 rfl).2 _ rfl⟩

end CAPA
